import Mathlib

/-!
Verification of the wasm-bindgen webpack plugin core (src/src/index.ts).

The development shallowly embeds the orchestrator: the staleness check
(`isResultValid` / `areRustFilesUpToDate`), the dependency walk
(`addRustFilesToDependencies`), the build pipeline (`compileRustCrate` and its
steps), the memoized target-directory resolver (`getCargoTargetDir`), the
manifest resolver (`getManifestInfo`), the process runner (`spawnProcess`) and
the per-compilation barrier built from `createPromise`.

File-system reads and external process outcomes are supplied by an
environment record; machine state (the two caches, the barrier table) is
threaded explicitly; every external process invocation is recorded in a log so
that claims counting invocations can be stated.
-/

namespace WasmBindgen

/-! ### String and path helpers

JS string primitives used by the source, modelled structurally over the
character list so that they evaluate by kernel reduction. -/

/-- Model of the JS `String.prototype.endsWith` used at `index.ts:429` and in
the tree walks. -/
def endsWith (s suffix : String) : Bool :=
  List.isSuffixOf suffix.data s.data

/-- Replace the first occurrence of `pat` (JS `String.prototype.replace` with a
string pattern replaces only the leftmost occurrence; `index.ts:658`). -/
def replaceFirstAux (pat rep : List Char) : List Char → List Char
  | [] => []
  | c :: cs =>
    if List.isPrefixOf pat (c :: cs) then rep ++ (c :: cs).drop pat.length
    else c :: replaceFirstAux pat rep cs

/-- JS `s.replace(pat, rep)` for a plain string pattern: leftmost occurrence
only. -/
def replaceFirst (s pat rep : String) : String :=
  ⟨replaceFirstAux pat.data rep.data s.data⟩

/-- The suffix replacement the spec describes: the trailing `.wasm` of the
input path replaced by `.opt.wasm`. Worded from the claim, for comparison
with the code's `replaceFirst`. -/
def specSuffixReplaced (s : String) : String :=
  ⟨s.data.take (s.data.length - 5) ++ ".opt.wasm".data⟩

/-- Model of node `path.join(a, b)` for the non-degenerate inputs the plugin
uses (both segments non-empty, no trailing separator). -/
def pathJoin (a b : String) : String := a ++ "/" ++ b

/-- Model of node `path.dirname`: everything before the last separator, `"."`
when there is none. -/
def pathDirname (p : String) : String :=
  match (p.data.reverse).dropWhile (fun c => c != '/') with
  | [] => "."
  | _ :: rest => ⟨rest.reverse⟩

/-- Whether a path is absolute (starts with the separator). -/
def startsWithSlash (s : String) : Bool :=
  match s.data with
  | [] => false
  | c :: _ => c == '/'

/-- Model of node `path.resolve(context, request)`: the request itself when
absolute, otherwise the join (normalization of `.`/`..` segments is not
needed by any claim). -/
def pathResolve (context request : String) : String :=
  if startsWithSlash request then request else pathJoin context request

/-! ### Association lists

Model of the two `Map` fields and of the barrier `WeakMap`: lookup finds the
first binding, insertion prepends after erasing the key. -/

/-- `Map.get` model: first binding for the key. -/
def alookup {α β : Type} [DecidableEq α] (k : α) : List (α × β) → Option β
  | [] => none
  | p :: ps => if p.1 = k then some p.2 else alookup k ps

/-- `Map.set` / `WeakMap.set` model: overwrite any binding for the key. -/
def aset {α β : Type} [DecidableEq α] (k : α) (v : β) (l : List (α × β)) :
    List (α × β) :=
  (k, v) :: l.filter (fun p => decide (p.1 ≠ k))

/-- `Map.delete` / `WeakMap.delete` model. -/
def aerase {α β : Type} [DecidableEq α] (k : α) (l : List (α × β)) :
    List (α × β) :=
  l.filter (fun p => decide (p.1 ≠ k))

/-! ### File-system snapshot

`isResultValid` reads the file system through `existsSync`, `statSync` and
`readdirSync`. Directory trees are a mutual inductive (so every walk is
structural and kernel-evaluable): a file carries the result of `statSync`
(`none` models a thrown stat), a directory carries the result of
`readdirSync` (`readable = false` models a thrown read). -/

mutual
inductive FsNode : Type where
  | file (name : String) (mtimeStat : Option Int) : FsNode
  | dir (name : String) (readable : Bool) (children : FsEntries) : FsNode

inductive FsEntries : Type where
  | nil : FsEntries
  | cons (head : FsNode) (tail : FsEntries) : FsEntries
end

/-- Everything `isResultValid` observes about one crate: the `existsSync`
results for the three artifacts and for `src/`, the `statSync` results for the
descriptor and the primary artifact (mtimes as integers, `none` = throw), and
the `src/` tree. Each field corresponds to exactly one file-system call in
`index.ts:710-742`. -/
structure CrateView where
  jsExists : Bool
  wasmExists : Bool
  dtsExists : Bool
  cargoTomlStat : Option Int
  jsStat : Option Int
  srcExists : Bool
  src : FsNode

/-- `CompilationResult` (`index.ts:382-386`). -/
structure CompilationResult where
  jsPath : String
  wasmPath : String
  dtsPath : Option String
deriving DecidableEq

/-! ### The staleness walk (`areRustFilesUpToDate`, `index.ts:744-767`)

A thrown `readdirSync` is caught at that directory and yields `false`; a
thrown `statSync` on a file is caught by the same handler and also yields
`false`; a `.rs` file newer than the generated artifact yields `false`. -/

mutual
def areRustFilesUpToDate : FsNode → Int → Bool
  | .file name mtimeStat, generatedTime =>
    if endsWith name ".rs" then
      match mtimeStat with
      | some m => decide (m ≤ generatedTime)
      | none => false
    else true
  | .dir _ readable children, generatedTime =>
    readable && entriesUpToDate children generatedTime

def entriesUpToDate : FsEntries → Int → Bool
  | .nil, _ => true
  | .cons n ns, t => areRustFilesUpToDate n t && entriesUpToDate ns t
end

/-! Spec-worded decompositions of the walk, used to state claims C1 and C9:
`noRsFileNewer` is the condition the claims word (every `.rs` file stats
successfully and is not newer), ignoring directory readability;
`allDirsReadable` is the extra condition the code actually imposes;
`rsUpToDateSkipUnreadable` is the walk as claim C9 words it (an unreadable
directory is "no further entries under this node"). -/

mutual
def noRsFileNewer : FsNode → Int → Bool
  | .file name mtimeStat, t =>
    if endsWith name ".rs" then
      match mtimeStat with
      | some m => decide (m ≤ t)
      | none => false
    else true
  | .dir _ _ children, t => entriesNoRsNewer children t

def entriesNoRsNewer : FsEntries → Int → Bool
  | .nil, _ => true
  | .cons n ns, t => noRsFileNewer n t && entriesNoRsNewer ns t
end

mutual
def allDirsReadable : FsNode → Bool
  | .file _ _ => true
  | .dir _ readable children => readable && entriesAllReadable children

def entriesAllReadable : FsEntries → Bool
  | .nil => true
  | .cons n ns => allDirsReadable n && entriesAllReadable ns
end

mutual
def rsUpToDateSkipUnreadable : FsNode → Int → Bool
  | .file name mtimeStat, t =>
    if endsWith name ".rs" then
      match mtimeStat with
      | some m => decide (m ≤ t)
      | none => false
    else true
  | .dir _ readable children, t =>
    !readable || entriesSkipUnreadable children t

def entriesSkipUnreadable : FsEntries → Int → Bool
  | .nil, _ => true
  | .cons n ns, t => rsUpToDateSkipUnreadable n t && entriesSkipUnreadable ns t
end

/-! ### The dependency-registration walk
(`addRustFilesToDependencies`, part_000:327-345)

Returns the list of paths added to `compilation.fileDependencies`; a thrown
`readdirSync` is caught and ignored, so the unreadable node contributes
nothing and the enclosing loop continues. -/

mutual
def addRustFilesToDependencies (parent : String) : FsNode → List String
  | .file name _ => if endsWith name ".rs" then [pathJoin parent name] else []
  | .dir name readable children =>
    if readable then collectEntries (pathJoin parent name) children else []

def collectEntries (parent : String) : FsEntries → List String
  | .nil => []
  | .cons n ns => addRustFilesToDependencies parent n ++ collectEntries parent ns
end

/-! ### `isResultValid` (`index.ts:710-742`) -/

def isResultValid (result : CompilationResult) (v : CrateView) : Bool :=
  let filesExist :=
    v.jsExists && v.wasmExists && (result.dtsPath.isNone || v.dtsExists)
  if !filesExist then false
  else
    match v.cargoTomlStat, v.jsStat with
    | some cargoTomlMtime, some jsMtime =>
      if decide (cargoTomlMtime > jsMtime) then false
      else if v.srcExists then areRustFilesUpToDate v.src jsMtime
      else true
    | _, _ => false

/-- The validity condition exactly as claim C1 words it: the three artifact
files exist, both stats succeed with descriptor mtime not greater than the
artifact mtime, and no `.rs` file under `src/` is newer (a failed stat of any
of these files yields false). Directory readability is not mentioned by the
claim. -/
def specResultValid (result : CompilationResult) (v : CrateView) : Bool :=
  v.jsExists && v.wasmExists && (result.dtsPath.isNone || v.dtsExists) &&
  (match v.cargoTomlStat, v.jsStat with
   | some cargoTomlMtime, some jsMtime =>
     decide (cargoTomlMtime ≤ jsMtime) &&
     (!v.srcExists || noRsFileNewer v.src jsMtime)
   | _, _ => false)

/-! ### Process outcomes (`spawnProcess`, `index.ts:780-820`)

One invocation either reaches the `close` event (with the exit code, which is
`null` when the process was killed by a signal, and the captured streams) or
the `error` event (the spawn itself failed). -/

inductive SpawnOutcome : Type where
  | close (code : Option Int) (stdout stderr : String) : SpawnOutcome
  | errorEvent (message : String) : SpawnOutcome
deriving DecidableEq

structure SpawnResult where
  stdout : String
  stderr : String
deriving DecidableEq

/-- `${code}` in the JS template literal: `null` prints as `"null"`. -/
def codeRepr : Option Int → String
  | some n => toString n
  | none => "null"

/-- `spawnProcess` (`index.ts:780-820`): resolves with the captured streams on
exit code 0; rejects with `prefix failed with exit code …:\n<stderr>` on any
other close; rejects with `Failed to spawn <prefix>: …` when the process could
not start. `prefix` is `errorPrefix || command`. -/
def spawnProcess (command : String) (errorPrefix : Option String)
    (out : SpawnOutcome) : Except String SpawnResult :=
  match out with
  | .close code stdout stderr =>
    if code = some 0 then .ok ⟨stdout, stderr⟩
    else
      .error ((errorPrefix.getD command) ++ " failed with exit code " ++
        codeRepr code ++ ":\n" ++ stderr)
  | .errorEvent message =>
    .error ("Failed to spawn " ++ (errorPrefix.getD command) ++ ": " ++ message)

/-! ### The orchestrator state and environment -/

/-- The record of one external process invocation (command plus the argument
that identifies the call site). -/
inductive Proc : Type where
  | readManifest (dir : String) : Proc
  | cargoMetadata (dir : String) : Proc
  | cargoBuild (dir : String) : Proc
  | wasmOpt (file : String) : Proc
  | wasmBindgen (file : String) : Proc
deriving DecidableEq

/-- One target of `cargo read-manifest` output (`index.ts:394-404`). -/
structure CargoTarget where
  name : String
  crate_types : List String
deriving DecidableEq

/-- Parsed `cargo read-manifest` output. -/
structure CargoManifest where
  manifest_path : String
  targets : List CargoTarget
deriving DecidableEq

/-- The two instance caches of the plugin (`index.ts:410-411`). -/
structure PluginState where
  compilationCache : List (String × CompilationResult)
  cargoTargetDirCache : List (String × String)
deriving DecidableEq

/-- Plugin options relevant to the claims (`index.ts:413-420`). The two
extra-flag lists only change subprocess argument vectors, which the process
log does not record. -/
structure PluginOptions where
  cacheDir : String
  optimizeWebassembly : Bool
deriving DecidableEq

/-- The world the orchestrator runs against: file-system answers and the
outcome of each external process, fixed for the duration of a scenario (an
"unchanged project" is a scenario with a single environment value).
`parseManifest`/`parseMetadata` model `JSON.parse` of the captured stdout
(`none` = parse throws). -/
structure Env where
  pathExists : String → Bool
  crateView : String → CrateView
  readManifestSpawn : String → Except String String
  parseManifest : String → Option CargoManifest
  metadataSpawn : String → Except String String
  parseMetadata : String → Option String
  buildSpawn : String → Except String Unit
  wasmOptSpawn : String → Except String Unit
  bindgenSpawn : String → Except String Unit

/-! ### Manifest resolver (`getManifestInfo`, `index.ts:540-561`) -/

/-- The error thrown when no target declares the `cdylib` crate type
(`index.ts:551-555`). -/
def noCdylibMessage : String :=
  "No cdylib target found in Cargo.toml. Make sure your Cargo.toml includes [lib] with crate-type = [\"cdylib\"]"

/-- `getManifestInfo`: run `cargo read-manifest` in the directory of the
imported `lib.rs`, parse its stdout, and pick the first target whose
`crate_types` includes `"cdylib"`. Returns the result together with the log of
process invocations. -/
def getManifestInfo (env : Env) (libRsDir : String) :
    Except String (String × String) × List Proc :=
  match env.readManifestSpawn libRsDir with
  | .error e => (.error e, [.readManifest libRsDir])
  | .ok stdout =>
    match env.parseManifest stdout with
    | none => (.error "Unexpected end of JSON input", [.readManifest libRsDir])
    | some manifest =>
      match manifest.targets.find? (fun t => t.crate_types.contains "cdylib") with
      | some cdylibTarget =>
        (.ok (manifest.manifest_path, cdylibTarget.name), [.readManifest libRsDir])
      | none => (.error noCdylibMessage, [.readManifest libRsDir])

/-! ### Target directory resolver (`getCargoTargetDir`, `index.ts:607-629`) -/

/-- Memoized per crate directory; the memo is written only after both the
subprocess and the parse succeed. Result, new state, process log. -/
def getCargoTargetDir (env : Env) (st : PluginState) (crateDir : String) :
    Except String String × PluginState × List Proc :=
  match alookup crateDir st.cargoTargetDirCache with
  | some dir => (.ok dir, st, [])
  | none =>
    match env.metadataSpawn crateDir with
    | .error e => (.error e, st, [.cargoMetadata crateDir])
    | .ok stdout =>
      match env.parseMetadata stdout with
      | none => (.error "Unexpected end of JSON input", st, [.cargoMetadata crateDir])
      | some targetDirectory =>
        (.ok targetDirectory,
         { st with cargoTargetDirCache :=
             (aset crateDir targetDirectory st.cargoTargetDirCache) },
         [.cargoMetadata crateDir])

/-! ### Pipeline steps (`index.ts:631-708`) -/

/-- `runWasmOpt` (`index.ts:652-668`): pass-through when optimization is off;
otherwise one `wasm-opt` invocation whose output path is the input path with
the first occurrence of `.wasm` replaced by `.opt.wasm`. -/
def runWasmOpt (env : Env) (opts : PluginOptions) (wasmFile : String) :
    Except String String × List Proc :=
  if !opts.optimizeWebassembly then (.ok wasmFile, [])
  else
    let optimizedWasmFile := replaceFirst wasmFile ".wasm" ".opt.wasm"
    match env.wasmOptSpawn wasmFile with
    | .error e => (.error e, [.wasmOpt wasmFile])
    | .ok _ => (.ok optimizedWasmFile, [.wasmOpt wasmFile])

/-- `runWasmBindgen` (`index.ts:670-708`): one `wasm-bindgen` invocation; on
success the artifact record under `cacheDir/<crate>/`. The `package.json` it
also writes is a file-system effect no claim depends on. -/
def runWasmBindgen (env : Env) (opts : PluginOptions)
    (wasmFile crateName : String) :
    Except String CompilationResult × List Proc :=
  let outputDir := pathJoin opts.cacheDir crateName
  match env.bindgenSpawn wasmFile with
  | .error e => (.error e, [.wasmBindgen wasmFile])
  | .ok _ =>
    (.ok { jsPath := pathJoin outputDir "index.js",
           wasmPath := pathJoin outputDir "index_bg.wasm",
           dtsPath := some (pathJoin outputDir "index.d.ts") },
     [.wasmBindgen wasmFile])

/-- The `try` block of `compileRustCrate` (`index.ts:580-605`): target-dir
discovery, compile, optional optimize, bind, in order, each step aborting the
rest on failure; the compilation cache is written only after the bind step
returns. -/
def compilePipeline (env : Env) (opts : PluginOptions) (st : PluginState)
    (crateDir crateName cargoTomlPath : String) :
    Except String CompilationResult × PluginState × List Proc :=
  match getCargoTargetDir env st crateDir with
  | (.error e, st1, ps1) => (.error e, st1, ps1)
  | (.ok cargoTargetDir, st1, ps1) =>
    match env.buildSpawn crateDir with
    | .error e => (.error e, st1, ps1 ++ [.cargoBuild crateDir])
    | .ok _ =>
      match runWasmOpt env opts
        (pathJoin (pathJoin (pathJoin cargoTargetDir "wasm32-unknown-unknown")
          "release") (crateName ++ ".wasm")) with
      | (.error e, ps2) => (.error e, st1, ps1 ++ [.cargoBuild crateDir] ++ ps2)
      | (.ok optimizedWasmFile, ps2) =>
        match runWasmBindgen env opts optimizedWasmFile crateName with
        | (.error e, ps3) =>
          (.error e, st1, ps1 ++ [.cargoBuild crateDir] ++ ps2 ++ ps3)
        | (.ok result, ps3) =>
          (.ok result,
           { st1 with compilationCache :=
               (aset cargoTomlPath result st1.compilationCache) },
           ps1 ++ [.cargoBuild crateDir] ++ ps2 ++ ps3)

/-- `compileRustCrate` (`index.ts:563-605`): return the cached entry when the
staleness check accepts it, otherwise run the pipeline (the `catch` rethrows,
so an error propagates unchanged). -/
def compileRustCrate (env : Env) (opts : PluginOptions) (st : PluginState)
    (crateDir crateName : String) :
    Except String CompilationResult × PluginState × List Proc :=
  let cargoTomlPath := pathJoin crateDir "Cargo.toml"
  match alookup cargoTomlPath st.compilationCache with
  | some cached =>
    if isResultValid cached (env.crateView cargoTomlPath) then (.ok cached, st, [])
    else compilePipeline env opts st crateDir crateName cargoTomlPath
  | none => compilePipeline env opts st crateDir crateName cargoTomlPath

/-! ### The `beforeResolve` hook (`index.ts:428-451`) -/

/-- What one run of the hook produces: the hook result (a rejection models a
thrown error), the request string after the hook (the hook mutates
`resolveData.request` in place on success), the plugin state after, and the
log of external process invocations. -/
structure ResolveOutcome where
  result : Except String Unit
  newRequest : String
  state : PluginState
  spawned : List Proc

/-- The hook body: requests not ending in `lib.rs` return at once; otherwise
resolve the manifest (one `cargo read-manifest` per request, before any cache
is consulted) and call `compileRustCrate`, substituting the generated bridge
module path for the request. -/
def beforeResolve (env : Env) (opts : PluginOptions) (st : PluginState)
    (context request : String) : ResolveOutcome :=
  if !endsWith request "lib.rs" then ⟨.ok (), request, st, []⟩
  else
    let libRsPath := pathResolve context request
    if !env.pathExists libRsPath then
      ⟨.error ("lib.rs not found at " ++ libRsPath), request, st, []⟩
    else
      match getManifestInfo env (pathDirname libRsPath) with
      | (.error e, ps) => ⟨.error e, request, st, ps⟩
      | (.ok (manifestPath, crateName), ps) =>
        let crateDir := pathDirname manifestPath
        match compileRustCrate env opts st crateDir crateName with
        | (.error e, st1, ps1) => ⟨.error e, request, st1, ps ++ ps1⟩
        | (.ok result, st1, ps1) => ⟨.ok (), result.jsPath, st1, ps ++ ps1⟩

/-! ### The cross-phase barrier
(`setupForkTsCheckerIntegration`, `index.ts:484-538`, and `createPromise`,
`index.ts:828-844`)

Promises are identified by allocation order; `released` records, newest
first, every signal on which `resolve` has been called. The `compilation`
hook stores a fresh promise in the `WeakMap`; the `afterCompile` hook
resolves and deletes it, and takes no success flag at all — it runs the same
way whether the cycle's pipeline succeeded or failed. -/

structure Barrier where
  nextFresh : Nat
  table : List (Nat × Nat)
  released : List Nat
deriving DecidableEq

/-- `createPromise` models allocation of a fresh pending promise: the new
signal id and the advanced allocator. -/
def createPromise (counter : Nat) : Nat × Nat := (counter, counter + 1)

/-- The `compiler.hooks.compilation` tap (`index.ts:496-503`):
`compilationPromises.set(compilation, createPromise())`. -/
def onCompilationHook (b : Barrier) (c : Nat) : Barrier :=
  let (sid, counter) := createPromise b.nextFresh
  { nextFresh := counter,
    table := aset c sid b.table,
    released := b.released }

/-- The `compiler.hooks.afterCompile` tap (`index.ts:522-530`):
`compilationPromises.get(compilation)?.resolve(null)` then `delete`. The
`success` argument is the cycle outcome, which the handler ignores. -/
def onAfterCompileHook (b : Barrier) (c : Nat) (_success : Bool) : Barrier :=
  match alookup c b.table with
  | some sid =>
    { b with released := sid :: b.released, table := aerase c b.table }
  | none => b

/-- One webpack build-cycle event as the barrier sees it. -/
inductive BarrierEvent : Type where
  | start (c : Nat) : BarrierEvent
  | finish (c : Nat) (success : Bool) : BarrierEvent
deriving DecidableEq

def runBarrier (b : Barrier) : List BarrierEvent → Barrier
  | [] => b
  | e :: es =>
    runBarrier
      (match e with
       | .start c => onCompilationHook b c
       | .finish c s => onAfterCompileHook b c s) es

/-! ### Concrete scenario values used by counterexamples and witnesses -/

/-- A cached entry with no type-declaration file. -/
def c1Result : CompilationResult := ⟨"index.js", "index_bg.wasm", none⟩

/-- All artifacts present and fresh, but `src/` contains an unreadable
subdirectory and no `.rs` file at all. -/
def c1View : CrateView :=
  ⟨true, true, false, some 0, some 0, true,
   .dir "src" true (.cons (.dir "locked" false .nil) .nil)⟩

/-- A source tree with an unreadable subdirectory next to an old `.rs` file. -/
def c9Node : FsNode :=
  .dir "src" true
    (.cons (.dir "locked" false .nil) (.cons (.file "main.rs" (some 0)) .nil))

/-- A crate whose artifacts all exist and are at least as new as the
descriptor, with no `src/` directory. -/
def demoView : CrateView := ⟨true, true, true, some 0, some 0, false, .file "unused" none⟩

def demoManifest : CargoManifest := ⟨"c/Cargo.toml", [⟨"democrate", ["cdylib"]⟩]⟩

/-- A healthy world: every file exists, every tool succeeds, the crate at
`c/Cargo.toml` declares the `cdylib` target `democrate`. -/
def demoEnv : Env where
  pathExists := fun _ => true
  crateView := fun _ => demoView
  readManifestSpawn := fun _ => .ok "manifest-json"
  parseManifest := fun s => if s = "manifest-json" then some demoManifest else none
  metadataSpawn := fun _ => .ok "metadata-json"
  parseMetadata := fun s => if s = "metadata-json" then some "t" else none
  buildSpawn := fun _ => .ok ()
  wasmOptSpawn := fun _ => .ok ()
  bindgenSpawn := fun _ => .ok ()

/-- The same world with a failing `cargo build`. -/
def failBuildEnv : Env :=
  { demoEnv with buildSpawn := fun _ => .error "compile error" }

def demoOpts : PluginOptions := ⟨"cache", false⟩

def demoState : PluginState := ⟨[], []⟩

/-- The artifact record the pipeline produces for `democrate` under the demo
options. -/
def demoResult : CompilationResult :=
  ⟨"cache/democrate/index.js", "cache/democrate/index_bg.wasm",
   some "cache/democrate/index.d.ts"⟩

/-- A barrier holding one pending cycle (compilation 7, signal 0). -/
def demoBarrier : Barrier := ⟨1, [(7, 0)], []⟩

/-- The barrier invariant: every signal id in use is below the allocator,
signal ids in the table are pairwise distinct and never already released, and
no signal is recorded as released twice. -/
def BarrierInv (b : Barrier) : Prop :=
  (∀ p ∈ b.table, p.2 < b.nextFresh) ∧
  (∀ i ∈ b.released, i < b.nextFresh) ∧
  b.released.Nodup ∧
  (b.table.map Prod.snd).Nodup ∧
  (∀ p ∈ b.table, p.2 ∉ b.released)

/-! ## Association-list lemmas -/

theorem alookup_mem {α β : Type} [DecidableEq α] {k : α} {v : β}
    {l : List (α × β)} (h : alookup k l = some v) : (k, v) ∈ l := by
  induction l with
  | nil => simp [alookup] at h
  | cons p ps ih =>
    by_cases hk : p.1 = k
    · rw [alookup, if_pos hk] at h
      injection h with h2
      subst hk
      subst h2
      simp
    · rw [alookup, if_neg hk] at h
      exact List.mem_cons_of_mem _ (ih h)

theorem alookup_aset_self {α β : Type} [DecidableEq α] (k : α) (v : β)
    (l : List (α × β)) : alookup k (aset k v l) = some v := by
  simp [alookup, aset]

/-! ## Bool decomposition of the staleness walk

The walk the code performs is exactly "every directory readable" and "no
`.rs` file freshly modified or failing to stat", combined. -/

mutual
theorem walk_eq_spec (n : FsNode) (t : Int) :
    areRustFilesUpToDate n t = (allDirsReadable n && noRsFileNewer n t) := by
  cases n with
  | file name mtimeStat =>
    simp [areRustFilesUpToDate, allDirsReadable, noRsFileNewer]
  | dir name readable children =>
    rw [areRustFilesUpToDate, allDirsReadable, noRsFileNewer,
      entries_eq_spec children t]
    cases readable <;> cases entriesAllReadable children <;>
      cases entriesNoRsNewer children t <;> rfl

theorem entries_eq_spec (ns : FsEntries) (t : Int) :
    entriesUpToDate ns t = (entriesAllReadable ns && entriesNoRsNewer ns t) := by
  cases ns with
  | nil => rfl
  | cons n tail =>
    rw [entriesUpToDate, entriesAllReadable, entriesNoRsNewer,
      walk_eq_spec n t, entries_eq_spec tail t]
    cases allDirsReadable n <;> cases noRsFileNewer n t <;>
      cases entriesAllReadable tail <;> cases entriesNoRsNewer tail t <;> rfl
end

theorem decide_gt_eq_not_le (a b : Int) : decide (a > b) = !decide (a ≤ b) := by
  by_cases h : a ≤ b
  · simp [h, not_lt.mpr h]
  · simp [h, not_le.mp h]

/-! ## Claim C1 -/

/-- C1 as stated is false: all artifacts of `c1Result` exist, both stats
succeed with descriptor mtime equal to the artifact mtime, and no `.rs` file
under `src/` is newer than the artifact (there is none at all), so the
claimed iff demands `isResultValid = true`; but `src/` holds an unreadable
subdirectory, whose `readdirSync` failure makes `areRustFilesUpToDate` — and
with it `isResultValid` — return `false`. -/
theorem C1_counterexample :
    specResultValid c1Result c1View = true ∧
    isResultValid c1Result c1View = false := ⟨rfl, rfl⟩

/-- C1 amended: `isResultValid` returns true iff the claimed condition holds
AND additionally every directory under `src/` could be read — a failure of
`readdirSync` anywhere in the walk also yields false (still a cache miss,
never a propagated error). -/
theorem C1_isResultValid_iff (result : CompilationResult) (v : CrateView) :
    isResultValid result v =
      (specResultValid result v && (!v.srcExists || allDirsReadable v.src)) := by
  unfold isResultValid specResultValid
  cases hjs : v.jsExists <;> cases hw : v.wasmExists <;>
    cases hd : (result.dtsPath.isNone || v.dtsExists) <;>
    cases hc : v.cargoTomlStat <;> cases hj : v.jsStat <;> simp
  all_goals rename_i cargoTomlMtime jsMtime
  all_goals rw [decide_gt_eq_not_le, walk_eq_spec]
  all_goals cases hle : decide (cargoTomlMtime ≤ jsMtime) <;>
    cases hs : v.srcExists <;>
    cases hr : allDirsReadable v.src <;>
    cases hn : noRsFileNewer v.src jsMtime <;> rfl

/-! ## Claim C9 -/

/-- C9 as stated is false for the staleness walk: on `c9Node` the only `.rs`
file is old, so treating the unreadable subdirectory as "no further entries"
(`rsUpToDateSkipUnreadable`, the walk as the claim words it) reports
up-to-date, but the code's walk returns false the moment `readdirSync`
throws. -/
theorem C9_counterexample :
    rsUpToDateSkipUnreadable c9Node 10 = true ∧
    areRustFilesUpToDate c9Node 10 = false := ⟨rfl, rfl⟩

/-- C9 amended: the two walks handle a directory-read failure differently.
In the watch-registration walk (`addRustFilesToDependencies`) the failure is
ignored: the unreadable node contributes no paths and sibling entries are
still collected. In the staleness walk (`areRustFilesUpToDate`) the failure
makes the subtree — and therefore the whole check — report stale (`false`):
the walk stops early, but the decision is a plain cache miss, not a
propagated error. -/
theorem C9_walks_on_unreadable (parent name : String) (cs : FsEntries)
    (rest : FsEntries) (t : Int) :
    addRustFilesToDependencies parent (.dir name false cs) = [] ∧
    collectEntries parent (.cons (.dir name false cs) rest) =
      collectEntries parent rest ∧
    areRustFilesUpToDate (.dir name false cs) t = false ∧
    entriesUpToDate (.cons (.dir name false cs) rest) t = false := by
  refine ⟨rfl, ?_, rfl, rfl⟩
  rw [collectEntries, addRustFilesToDependencies]
  simp

/-! ## Claim C8 -/

/-- C8 as stated is false on paths where `.wasm` occurs before the suffix:
JS `String.replace` rewrites the first occurrence, so with optimization
enabled the derived path for `a.wasmb.wasm` is `a.opt.wasmb.wasm`, not the
suffix replacement `a.wasmb.opt.wasm`. -/
theorem C8_counterexample :
    (runWasmOpt demoEnv ⟨"cache", true⟩ "a.wasmb.wasm").1 = .ok "a.opt.wasmb.wasm" ∧
    specSuffixReplaced "a.wasmb.wasm" = "a.wasmb.opt.wasm" ∧
    ("a.opt.wasmb.wasm" : String) ≠ "a.wasmb.opt.wasm" := by
  refine ⟨rfl, rfl, by decide⟩

/-- C8 amended: disabled optimization is a pure pass-through (input path
returned, no process spawned); enabled optimization spawns `wasm-opt` exactly
once and, when the tool succeeds, returns the input path with its FIRST
occurrence of `.wasm` replaced by `.opt.wasm` (this coincides with suffix
replacement whenever `.wasm` occurs only at the end of the path). -/
theorem C8_runWasmOpt_spec (env : Env) (opts : PluginOptions) (wasmFile : String) :
    (opts.optimizeWebassembly = false →
      runWasmOpt env opts wasmFile = (.ok wasmFile, [])) ∧
    (opts.optimizeWebassembly = true →
      (runWasmOpt env opts wasmFile).2 = [.wasmOpt wasmFile] ∧
      ∀ u, env.wasmOptSpawn wasmFile = .ok u →
        (runWasmOpt env opts wasmFile).1 =
          .ok (replaceFirst wasmFile ".wasm" ".opt.wasm")) := by
  constructor
  · intro h
    simp [runWasmOpt, h]
  · intro h
    constructor
    · simp only [runWasmOpt, h, Bool.not_true, Bool.false_eq_true, if_false]
      cases env.wasmOptSpawn wasmFile <;> rfl
    · intro u hu
      simp [runWasmOpt, h, hu]

/-- Witness for C8: pass-through when disabled, and the derived path on a
well-formed artifact path when enabled. -/
theorem C8_runWasmOpt_spec_witness :
    runWasmOpt demoEnv ⟨"cache", false⟩ "t/release/democrate.wasm" =
      (.ok "t/release/democrate.wasm", []) :=
  (C8_runWasmOpt_spec demoEnv ⟨"cache", false⟩ "t/release/democrate.wasm").1 rfl

/-! ## Claim C5 -/

/-- C5: `spawnProcess` resolves with the captured stdout and stderr exactly
when the process closes with exit code 0; any other close produces the
message `<prefix> failed with exit code <code>:\n<stderr>` where `prefix` is
the step-identifying `errorPrefix` when given and the command name otherwise;
a spawn failure produces the distinct message
`Failed to spawn <prefix>: <reason>`. -/
theorem C5_spawnProcess_spec (command : String) (errorPrefix : Option String)
    (out : SpawnOutcome) :
    ((∃ r, spawnProcess command errorPrefix out = .ok r) ↔
      (∃ stdout stderr, out = .close (some 0) stdout stderr)) ∧
    (∀ stdout stderr, out = .close (some 0) stdout stderr →
      spawnProcess command errorPrefix out = .ok ⟨stdout, stderr⟩) ∧
    (∀ code stdout stderr, out = .close code stdout stderr → code ≠ some 0 →
      spawnProcess command errorPrefix out =
        .error ((errorPrefix.getD command) ++ " failed with exit code " ++
          codeRepr code ++ ":\n" ++ stderr)) ∧
    (∀ message, out = .errorEvent message →
      spawnProcess command errorPrefix out =
        .error ("Failed to spawn " ++ (errorPrefix.getD command) ++ ": " ++
          message)) := by
  refine ⟨⟨?_, ?_⟩, ?_, ?_, ?_⟩
  · rintro ⟨r, hr⟩
    cases out with
    | close code stdout stderr =>
      by_cases h : code = some 0
      · subst h
        exact ⟨stdout, stderr, rfl⟩
      · simp [spawnProcess, h] at hr
    | errorEvent m => simp [spawnProcess] at hr
  · rintro ⟨stdout, stderr, rfl⟩
    exact ⟨⟨stdout, stderr⟩, by simp [spawnProcess]⟩
  · rintro stdout stderr rfl
    simp [spawnProcess]
  · rintro code stdout stderr rfl h
    simp [spawnProcess, h]
  · rintro m rfl
    simp [spawnProcess]

/-- Witness for C5: a `wasm-opt` exit with code 1 produces the
optimizer-identifying message carrying the code and the captured stderr. -/
theorem C5_spawnProcess_spec_witness :
    spawnProcess "wasm-opt" none (.close (some 1) "" "boom") =
      .error (((none : Option String).getD "wasm-opt") ++
        " failed with exit code " ++ codeRepr (some 1) ++ ":\n" ++ "boom") :=
  (C5_spawnProcess_spec "wasm-opt" none (.close (some 1) "" "boom")).2.2.1
    (some 1) "" "boom" rfl (by decide)

/-! ## Claim C6 -/

/-- C6: after a successful manifest read and parse, `getManifestInfo` returns
the manifest path paired with the name of the first target whose
`crate_types` includes `"cdylib"` (a target satisfying the scan predicate);
when no target includes it, the call fails with a message naming the expected
type `cdylib`. -/
theorem C6_getManifestInfo_spec (env : Env) (libRsDir stdout : String)
    (manifest : CargoManifest)
    (h1 : env.readManifestSpawn libRsDir = .ok stdout)
    (h2 : env.parseManifest stdout = some manifest) :
    (∀ t, manifest.targets.find? (fun t => t.crate_types.contains "cdylib") =
        some t →
      (getManifestInfo env libRsDir).1 = .ok (manifest.manifest_path, t.name) ∧
      "cdylib" ∈ t.crate_types) ∧
    ((∀ t ∈ manifest.targets, "cdylib" ∉ t.crate_types) →
      ∃ pre post,
        (getManifestInfo env libRsDir).1 = .error (pre ++ "cdylib" ++ post)) := by
  constructor
  · intro t ht
    refine ⟨?_, by simpa using List.find?_some ht⟩
    simp only [getManifestInfo, h1, h2]
    rw [ht]
  · intro hnone
    have hfind : manifest.targets.find?
        (fun t => t.crate_types.contains "cdylib") = none := by
      rw [List.find?_eq_none]
      intro x hx
      simpa using hnone x hx
    refine ⟨"No ", " target found in Cargo.toml. Make sure your Cargo.toml includes [lib] with crate-type = [\"cdylib\"]", ?_⟩
    simp only [getManifestInfo, h1, h2]
    rw [hfind]
    rfl

/-- Witness for C6: the demo manifest resolves to its `cdylib` target. -/
theorem C6_getManifestInfo_spec_witness :
    (getManifestInfo demoEnv "ctx/src").1 = .ok ("c/Cargo.toml", "democrate") ∧
    "cdylib" ∈ (["cdylib"] : List String) :=
  (C6_getManifestInfo_spec demoEnv "ctx/src" "manifest-json" demoManifest rfl
    rfl).1 ⟨"democrate", ["cdylib"]⟩ rfl

/-! ## Claim C7 -/

/-- C7: `getCargoTargetDir` returns a memoized root with no subprocess and
unchanged state; on a miss it spawns `cargo metadata` exactly once, and the
memo for the root is populated exactly when both the invocation and the parse
succeed — on either failure the state is unchanged, so the next call
retries. -/
theorem C7_getCargoTargetDir_spec (env : Env) (st : PluginState)
    (crateDir : String) :
    (∀ dir, alookup crateDir st.cargoTargetDirCache = some dir →
      getCargoTargetDir env st crateDir = (.ok dir, st, [])) ∧
    (alookup crateDir st.cargoTargetDirCache = none →
      (getCargoTargetDir env st crateDir).2.2 = [.cargoMetadata crateDir] ∧
      (∀ stdout targetDirectory, env.metadataSpawn crateDir = .ok stdout →
        env.parseMetadata stdout = some targetDirectory →
        (getCargoTargetDir env st crateDir).1 = .ok targetDirectory ∧
        alookup crateDir
          (getCargoTargetDir env st crateDir).2.1.cargoTargetDirCache =
            some targetDirectory) ∧
      (∀ e, env.metadataSpawn crateDir = .error e →
        (getCargoTargetDir env st crateDir).1 = .error e ∧
        (getCargoTargetDir env st crateDir).2.1 = st) ∧
      (∀ stdout, env.metadataSpawn crateDir = .ok stdout →
        env.parseMetadata stdout = none →
        (getCargoTargetDir env st crateDir).2.1 = st)) := by
  constructor
  · intro dir h
    simp [getCargoTargetDir, h]
  · intro h
    refine ⟨?_, ?_, ?_, ?_⟩
    · simp only [getCargoTargetDir, h]
      cases hm : env.metadataSpawn crateDir with
      | error e => rfl
      | ok stdout =>
        dsimp only
        cases hp : env.parseMetadata stdout <;> rfl
    · intro stdout td hm hp
      constructor <;> simp [getCargoTargetDir, h, hm, hp, alookup_aset_self]
    · intro e hm
      constructor <;> simp [getCargoTargetDir, h, hm]
    · intro stdout hm hp
      simp [getCargoTargetDir, h, hm, hp]

/-- Witness for C7: a memoized root is returned with no subprocess. -/
theorem C7_getCargoTargetDir_spec_witness :
    getCargoTargetDir demoEnv ⟨[], [("c", "t")]⟩ "c" =
      (.ok "t", ⟨[], [("c", "t")]⟩, []) :=
  (C7_getCargoTargetDir_spec demoEnv ⟨[], [("c", "t")]⟩ "c").1 "t" rfl

/-! ## Pipeline lemmas -/

/-- `getCargoTargetDir` never touches the compilation cache. -/
theorem getCargoTargetDir_cc (env : Env) (st : PluginState) (crateDir : String) :
    (getCargoTargetDir env st crateDir).2.1.compilationCache =
      st.compilationCache := by
  simp only [getCargoTargetDir]
  cases alookup crateDir st.cargoTargetDirCache with
  | some dir => rfl
  | none =>
    cases env.metadataSpawn crateDir with
    | error e => rfl
    | ok stdout =>
      dsimp only
      cases env.parseMetadata stdout <;> rfl

/-- The pipeline leaves the compilation cache untouched on any failure, and on
success stores exactly the bind result under the descriptor key after a
successful `wasm-bindgen` invocation. -/
theorem compilePipeline_cc (env : Env) (opts : PluginOptions) (st : PluginState)
    (crateDir crateName key : String) :
    (∀ e, (compilePipeline env opts st crateDir crateName key).1 = .error e →
      (compilePipeline env opts st crateDir crateName key).2.1.compilationCache =
        st.compilationCache) ∧
    (∀ r, (compilePipeline env opts st crateDir crateName key).1 = .ok r →
      (compilePipeline env opts st crateDir crateName key).2.1.compilationCache =
        aset key r st.compilationCache ∧
      ∃ f u, env.bindgenSpawn f = .ok u ∧
        Proc.wasmBindgen f ∈ (compilePipeline env opts st crateDir crateName key).2.2) := by
  have hcc := getCargoTargetDir_cc env st crateDir
  rcases hE : getCargoTargetDir env st crateDir with ⟨r1, st1, ps1⟩
  rw [hE] at hcc
  dsimp only at hcc
  simp only [compilePipeline, hE]
  cases r1 with
  | error e => exact ⟨fun e' _ => hcc, fun r h => by simp at h⟩
  | ok cargoTargetDir =>
    dsimp only
    cases hB : env.buildSpawn crateDir with
    | error e => exact ⟨fun e' _ => hcc, fun r h => by simp at h⟩
    | ok u1 =>
      dsimp only
      rcases hW : runWasmOpt env opts
          (pathJoin (pathJoin (pathJoin cargoTargetDir "wasm32-unknown-unknown")
            "release") (crateName ++ ".wasm")) with ⟨rw1, ps2⟩
      cases rw1 with
      | error e => exact ⟨fun e' _ => hcc, fun r h => by simp at h⟩
      | ok optimizedWasmFile =>
        dsimp only
        cases hBg : env.bindgenSpawn optimizedWasmFile with
        | error e =>
          refine ⟨fun e' _ => ?_, fun r h => ?_⟩
          · simp only [runWasmBindgen, hBg]
            exact hcc
          · simp [runWasmBindgen, hBg] at h
        | ok u2 =>
          refine ⟨fun e' h => ?_, fun r h => ?_⟩
          · simp [runWasmBindgen, hBg] at h
          · simp only [runWasmBindgen, hBg] at h ⊢
            injection h with h2
            subst h2
            refine ⟨by rw [hcc], optimizedWasmFile, u2, hBg, ?_⟩
            simp

/-! ## Claim C4 -/

/-- C4: on any pipeline failure `compileRustCrate` leaves the compilation
cache exactly as it was (so a previously stored entry for the key is still
there) and the error is its result; the cache changes only when the call
returns a successful result, in which case the change is precisely the new
entry under the descriptor key, stored after a successful final `wasm-bindgen`
invocation. -/
theorem C4_compileRustCrate_cache (env : Env) (opts : PluginOptions)
    (st : PluginState) (crateDir crateName : String) :
    (∀ e, (compileRustCrate env opts st crateDir crateName).1 = .error e →
      (compileRustCrate env opts st crateDir crateName).2.1.compilationCache =
        st.compilationCache) ∧
    (∀ r, (compileRustCrate env opts st crateDir crateName).1 = .ok r →
      (compileRustCrate env opts st crateDir crateName).2.1.compilationCache =
        st.compilationCache ∨
      ((compileRustCrate env opts st crateDir crateName).2.1.compilationCache =
        aset (pathJoin crateDir "Cargo.toml") r st.compilationCache ∧
       ∃ f u, env.bindgenSpawn f = .ok u ∧
         Proc.wasmBindgen f ∈
           (compileRustCrate env opts st crateDir crateName).2.2)) := by
  have hp := compilePipeline_cc env opts st crateDir crateName
    (pathJoin crateDir "Cargo.toml")
  simp only [compileRustCrate]
  cases hL : alookup (pathJoin crateDir "Cargo.toml") st.compilationCache with
  | some cached =>
    dsimp only
    cases hV : isResultValid cached (env.crateView (pathJoin crateDir "Cargo.toml")) with
    | false =>
      simp only [hV, Bool.false_eq_true, if_false]
      exact ⟨hp.1, fun r h => Or.inr (hp.2 r h)⟩
    | true =>
      simp only [hV, if_true]
      exact ⟨fun e h => by simp at h, fun r _ => Or.inl trivial⟩
  | none => exact ⟨hp.1, fun r h => Or.inr (hp.2 r h)⟩

/-- Witness for C4: a failing `cargo build` leaves the (empty) compilation
cache unchanged. -/
theorem C4_compileRustCrate_cache_witness :
    (compileRustCrate failBuildEnv demoOpts demoState "c" "democrate").2.1.compilationCache =
      demoState.compilationCache :=
  (C4_compileRustCrate_cache failBuildEnv demoOpts demoState "c" "democrate").1
    "compile error" rfl

/-! ## Claim C10 -/

/-- C10: a request that does not end in `lib.rs` makes the hook return at
once: the request is unchanged, no process is spawned, and the plugin state —
both caches — is returned exactly as passed (the conclusion holds for every
state, so the outcome also does not depend on cache contents). -/
theorem C10_beforeResolve_frame (env : Env) (opts : PluginOptions)
    (st : PluginState) (context request : String)
    (h : endsWith request "lib.rs" = false) :
    beforeResolve env opts st context request = ⟨.ok (), request, st, []⟩ := by
  simp [beforeResolve, h]

/-- Witness for C10: a TypeScript request passes through untouched. -/
theorem C10_beforeResolve_frame_witness :
    beforeResolve demoEnv demoOpts demoState "ctx" "app.ts" =
      ⟨.ok (), "app.ts", demoState, []⟩ :=
  C10_beforeResolve_frame demoEnv demoOpts demoState "ctx" "app.ts" rfl

/-! ## Claim C3 -/

/-- Every run of `getManifestInfo` spawns `cargo read-manifest` exactly
once. -/
theorem getManifestInfo_log (env : Env) (dir : String) :
    (getManifestInfo env dir).2 = [.readManifest dir] := by
  simp only [getManifestInfo]
  cases env.readManifestSpawn dir with
  | error e => rfl
  | ok stdout =>
    dsimp only
    cases env.parseManifest stdout with
    | none => rfl
    | some m =>
      dsimp only
      cases m.targets.find? (fun t => t.crate_types.contains "cdylib") <;> rfl

/-- A valid cached entry short-circuits `compileRustCrate`: the cached record
is returned, the state is untouched and nothing is spawned. -/
theorem compileRustCrate_hit (env : Env) (opts : PluginOptions)
    (st : PluginState) (crateDir crateName : String) (r : CompilationResult)
    (hL : alookup (pathJoin crateDir "Cargo.toml") st.compilationCache = some r)
    (hV : isResultValid r (env.crateView (pathJoin crateDir "Cargo.toml")) = true) :
    compileRustCrate env opts st crateDir crateName = (.ok r, st, []) := by
  simp [compileRustCrate, hL, hV]

/-- After a successful `compileRustCrate`, the resulting state's compilation
cache answers the descriptor key with the returned record. -/
theorem compileRustCrate_ok_lookup (env : Env) (opts : PluginOptions)
    (st : PluginState) (crateDir crateName : String) (r : CompilationResult)
    (h : (compileRustCrate env opts st crateDir crateName).1 = .ok r) :
    alookup (pathJoin crateDir "Cargo.toml")
      (compileRustCrate env opts st crateDir crateName).2.1.compilationCache =
        some r := by
  have hp := (compilePipeline_cc env opts st crateDir crateName
    (pathJoin crateDir "Cargo.toml")).2
  simp only [compileRustCrate] at h ⊢
  cases hL : alookup (pathJoin crateDir "Cargo.toml") st.compilationCache with
  | some cached =>
    rw [hL] at h
    dsimp only at h ⊢
    cases hV : isResultValid cached (env.crateView (pathJoin crateDir "Cargo.toml")) with
    | true =>
      simp only [hV, if_true] at h ⊢
      injection h with h2
      subst h2
      exact hL
    | false =>
      simp only [hV, Bool.false_eq_true, if_false] at h ⊢
      rw [(hp r h).1]
      exact alookup_aset_self _ _ _
  | none =>
    rw [hL] at h
    dsimp only at h ⊢
    rw [(hp r h).1]
    exact alookup_aset_self _ _ _

/-- C3 as stated is false: in the demo world the first resolve of
`src/lib.rs` succeeds and caches `demoResult`, whose artifacts remain intact
and fresh (`isResultValid` still accepts it), yet the second resolve of the
same reference still spawns one external process — the `cargo read-manifest`
that re-derives the descriptor before the cache is consulted — rather than
zero. -/
theorem C3_counterexample :
    (beforeResolve demoEnv demoOpts demoState "ctx" "src/lib.rs").result = .ok () ∧
    (beforeResolve demoEnv demoOpts demoState "ctx" "src/lib.rs").state.compilationCache =
      [("c/Cargo.toml", demoResult)] ∧
    isResultValid demoResult (demoEnv.crateView "c/Cargo.toml") = true ∧
    (beforeResolve demoEnv demoOpts
        (beforeResolve demoEnv demoOpts demoState "ctx" "src/lib.rs").state
        "ctx" "src/lib.rs").spawned = [.readManifest "ctx/src"] ∧
    ([Proc.readManifest "ctx/src"] : List Proc) ≠ [] :=
  ⟨rfl, rfl, rfl, rfl, fun h => List.noConfusion h⟩

/-- C3 amended: after a successful resolve-and-build of a `lib.rs` reference,
if every cached entry is still accepted by the staleness check (the
"unchanged project"), a second resolve of the same reference returns the
identical CacheEntry (same substituted bridge path), leaves the state
identical, and performs exactly one external process invocation — the
`cargo read-manifest` that re-derives the descriptor — and in particular
none of the build-pipeline steps. -/
theorem C3_second_resolve (env : Env) (opts : PluginOptions) (st : PluginState)
    (context request : String) (o1 : ResolveOutcome)
    (hreq : endsWith request "lib.rs" = true)
    (h1 : beforeResolve env opts st context request = o1)
    (hok : o1.result = .ok ())
    (hvalid : ∀ key r, alookup key o1.state.compilationCache = some r →
      isResultValid r (env.crateView key) = true) :
    beforeResolve env opts o1.state context request =
      ⟨.ok (), o1.newRequest, o1.state,
       [Proc.readManifest (pathDirname (pathResolve context request))]⟩ := by
  have hml := getManifestInfo_log env (pathDirname (pathResolve context request))
  rw [beforeResolve] at h1 ⊢
  rw [hreq] at h1 ⊢
  simp only [Bool.not_true, Bool.false_eq_true, if_false] at h1 ⊢
  cases hEx : env.pathExists (pathResolve context request) with
  | false =>
    rw [hEx] at h1
    simp only [Bool.not_false, if_true] at h1
    rw [← h1] at hok
    simp at hok
  | true =>
    rw [hEx] at h1
    simp only [Bool.not_true, Bool.false_eq_true, if_false] at h1 ⊢
    rcases hM : getManifestInfo env (pathDirname (pathResolve context request))
      with ⟨mres, ps⟩
    rw [hM] at h1 hml
    dsimp only at hml
    cases mres with
    | error e =>
      dsimp only at h1
      rw [← h1] at hok
      simp at hok
    | ok p =>
      rcases p with ⟨manifestPath, crateName⟩
      dsimp only at h1
      rcases hC : compileRustCrate env opts st (pathDirname manifestPath) crateName
        with ⟨cres, st1, ps1⟩
      rw [hC] at h1
      cases cres with
      | error e =>
        dsimp only at h1
        rw [← h1] at hok
        simp at hok
      | ok r =>
        dsimp only at h1
        have hlook := compileRustCrate_ok_lookup env opts st
          (pathDirname manifestPath) crateName r (by rw [hC])
        rw [hC] at hlook
        dsimp only at hlook
        have hV := hvalid (pathJoin (pathDirname manifestPath) "Cargo.toml") r
          (by rw [← h1]; exact hlook)
        have hHit := compileRustCrate_hit env opts st1
          (pathDirname manifestPath) crateName r hlook hV
        rw [← h1]
        dsimp only
        rw [hHit]
        dsimp only
        rw [hml]
        simp

/-- Witness for C3 (amended): the demo world, where the second resolve is a
pure cache hit behind a single manifest read. -/
theorem C3_second_resolve_witness :
    beforeResolve demoEnv demoOpts
        (beforeResolve demoEnv demoOpts demoState "ctx" "src/lib.rs").state
        "ctx" "src/lib.rs" =
      ⟨.ok (),
       (beforeResolve demoEnv demoOpts demoState "ctx" "src/lib.rs").newRequest,
       (beforeResolve demoEnv demoOpts demoState "ctx" "src/lib.rs").state,
       [Proc.readManifest (pathDirname (pathResolve "ctx" "src/lib.rs"))]⟩ :=
  C3_second_resolve demoEnv demoOpts demoState "ctx" "src/lib.rs" _ rfl rfl rfl
    (by
      intro key r h
      have h2 : (if "c/Cargo.toml" = key then some demoResult else none) =
          some r := h
      by_cases hk : "c/Cargo.toml" = key
      · rw [if_pos hk] at h2
        injection h2 with h3
        subst h3
        rfl
      · rw [if_neg hk] at h2
        cases h2)

/-! ## Barrier lemmas -/

/-- One released signal stays released, never reappears in the table, and
stays below the allocator, across any further events. -/
def SignalDone (b : Barrier) (sid : Nat) : Prop :=
  sid ∈ b.released ∧ sid ∉ b.table.map Prod.snd ∧ sid < b.nextFresh

theorem barrierInv_onCompilation (b : Barrier) (hInv : BarrierInv b) (c : Nat) :
    BarrierInv (onCompilationHook b c) := by
  obtain ⟨h1, h2, h3, h4, h5⟩ := hInv
  simp only [onCompilationHook, createPromise, aset]
  refine ⟨?_, ?_, h3, ?_, ?_⟩
  · intro p hp
    rcases List.mem_cons.mp hp with rfl | hp
    · exact Nat.lt_succ_self _
    · exact Nat.lt_succ_of_lt (h1 p (List.mem_of_mem_filter hp))
  · intro i hi
    exact Nat.lt_succ_of_lt (h2 i hi)
  · rw [List.map_cons]
    refine List.nodup_cons.mpr ⟨?_, ((List.filter_sublist _).map _).nodup h4⟩
    intro hmem
    rcases List.mem_map.mp hmem with ⟨p, hp, hps⟩
    have := h1 p (List.mem_of_mem_filter hp)
    rw [hps] at this
    exact Nat.lt_irrefl _ this
  · intro p hp
    rcases List.mem_cons.mp hp with rfl | hp
    · intro hmem
      exact Nat.lt_irrefl _ (h2 _ hmem)
    · exact h5 p (List.mem_of_mem_filter hp)

theorem barrierInv_onAfterCompile (b : Barrier) (hInv : BarrierInv b) (c : Nat)
    (s : Bool) : BarrierInv (onAfterCompileHook b c s) := by
  obtain ⟨h1, h2, h3, h4, h5⟩ := hInv
  unfold onAfterCompileHook
  cases hL : alookup c b.table with
  | none => exact ⟨h1, h2, h3, h4, h5⟩
  | some sid =>
    have hmem := alookup_mem hL
    dsimp only [aerase]
    refine ⟨?_, ?_, ?_, ?_, ?_⟩
    · intro p hp
      exact h1 p (List.mem_of_mem_filter hp)
    · intro i hi
      rcases List.mem_cons.mp hi with rfl | hi
      · exact h1 _ hmem
      · exact h2 i hi
    · exact List.nodup_cons.mpr ⟨h5 _ hmem, h3⟩
    · exact ((List.filter_sublist _).map _).nodup h4
    · intro p hp
      have hpt := List.mem_of_mem_filter hp
      have hpc : p.1 ≠ c := by simpa using List.of_mem_filter hp
      intro hrel
      rcases List.mem_cons.mp hrel with hps | hps
      · have hpe : p = (c, sid) :=
          List.inj_on_of_nodup_map h4 hpt hmem hps
        exact hpc (congrArg Prod.fst hpe)
      · exact h5 p hpt hps

theorem barrierInv_run (b : Barrier) (hInv : BarrierInv b)
    (es : List BarrierEvent) : BarrierInv (runBarrier b es) := by
  induction es generalizing b with
  | nil => exact hInv
  | cons e es ih =>
    cases e with
    | start c => exact ih _ (barrierInv_onCompilation b hInv c)
    | finish c s => exact ih _ (barrierInv_onAfterCompile b hInv c s)

theorem signalDone_start (b : Barrier) (sid c : Nat) (h : SignalDone b sid) :
    SignalDone (onCompilationHook b c) sid := by
  obtain ⟨h1, h2, h3⟩ := h
  refine ⟨h1, ?_, Nat.lt_succ_of_lt h3⟩
  simp only [onCompilationHook, createPromise, aset, List.map_cons]
  intro hmem
  rcases List.mem_cons.mp hmem with rfl | hmem
  · exact Nat.lt_irrefl _ h3
  · rcases List.mem_map.mp hmem with ⟨p, hp, hps⟩
    exact h2 (List.mem_map.mpr ⟨p, List.mem_of_mem_filter hp, hps⟩)

theorem signalDone_finish (b : Barrier) (sid c : Nat) (s : Bool)
    (h : SignalDone b sid) : SignalDone (onAfterCompileHook b c s) sid := by
  obtain ⟨h1, h2, h3⟩ := h
  unfold onAfterCompileHook
  cases alookup c b.table with
  | none => exact ⟨h1, h2, h3⟩
  | some sid2 =>
    dsimp only [aerase]
    refine ⟨List.mem_cons_of_mem _ h1, ?_, h3⟩
    intro hmem
    apply h2
    rcases List.mem_map.mp hmem with ⟨p, hp, hps⟩
    exact List.mem_map.mpr ⟨p, List.mem_of_mem_filter hp, hps⟩

theorem signalDone_run (b : Barrier) (sid : Nat) (es : List BarrierEvent)
    (h : SignalDone b sid) : SignalDone (runBarrier b es) sid := by
  induction es generalizing b with
  | nil => exact h
  | cons e es ih =>
    cases e with
    | start c => exact ih _ (signalDone_start b sid c h)
    | finish c s => exact ih _ (signalDone_finish b sid c s h)

/-! ## Claim C2 -/

/-- C2: under the barrier invariant, (1) the `compilation` hook installs a
fresh pending signal for the cycle — one that was never in the table and was
never released before, so no finished cycle's signal is reused; (2) the
`afterCompile` hook acts identically whatever the cycle outcome was, success
or failure; (3) once a cycle with a pending signal ends, that signal appears
exactly once in the release record, and stays released exactly once across
every later event sequence — each waiter on it unblocks, and it is never
resolved a second time. -/
theorem C2_barrier_signals (b : Barrier) (hInv : BarrierInv b) :
    (∀ c, alookup c (onCompilationHook b c).table = some b.nextFresh ∧
      b.nextFresh ∉ b.table.map Prod.snd ∧ b.nextFresh ∉ b.released) ∧
    (∀ c s1 s2, onAfterCompileHook b c s1 = onAfterCompileHook b c s2) ∧
    (∀ c sid s es, alookup c b.table = some sid →
      (runBarrier (onAfterCompileHook b c s) es).released.count sid = 1) := by
  obtain ⟨h1, h2, h3, h4, h5⟩ := hInv
  refine ⟨?_, fun c s1 s2 => rfl, ?_⟩
  · intro c
    refine ⟨?_, ?_, ?_⟩
    · simp [onCompilationHook, createPromise, aset, alookup]
    · intro hmem
      rcases List.mem_map.mp hmem with ⟨p, hp, hps⟩
      have := h1 p hp
      rw [hps] at this
      exact Nat.lt_irrefl _ this
    · intro hmem
      exact Nat.lt_irrefl _ (h2 _ hmem)
  · intro c sid s es hL
    have hmem := alookup_mem hL
    have hstep : SignalDone (onAfterCompileHook b c s) sid := by
      unfold onAfterCompileHook
      rw [hL]
      dsimp only [aerase]
      refine ⟨List.mem_cons_self _ _, ?_, h1 _ hmem⟩
      intro hmm
      rcases List.mem_map.mp hmm with ⟨p, hp, hps⟩
      have hpc : p.1 ≠ c := by simpa using List.of_mem_filter hp
      have hpe : p = (c, sid) :=
        List.inj_on_of_nodup_map h4 (List.mem_of_mem_filter hp) hmem hps
      exact hpc (congrArg Prod.fst hpe)
    have hdone := signalDone_run _ sid es hstep
    have hinv2 := barrierInv_run _
      (barrierInv_onAfterCompile b ⟨h1, h2, h3, h4, h5⟩ c s) es
    exact List.count_eq_one_of_mem hinv2.2.2.1 hdone.1

/-- Witness for C2: from a barrier holding one pending cycle, ending that
cycle with a failure and then running a full later cycle leaves the first
signal released exactly once. -/
theorem C2_barrier_signals_witness :
    (runBarrier (onAfterCompileHook demoBarrier 7 false)
      [.start 9, .finish 9 true, .finish 7 false]).released.count 0 = 1 :=
  (C2_barrier_signals demoBarrier (by unfold BarrierInv; decide)).2.2 7 0 false
    [.start 9, .finish 9 true, .finish 7 false] rfl

end WasmBindgen
